import Mathlib

/-!
Shallow embedding of the `shp` container launcher (`shp.go`) and proofs
about its launch protocol, isolation fallback policy, command-path
rewriting and error handling.

The program is modelled as a family of trace-producing functions.  Every
OS interaction (syscall, process spawn, write to standard output, process
exit) is recorded as an `Ev` event; the outcome of each fallible OS call
is supplied by an oracle structure, so theorems quantify over every
possible behaviour of the operating system.  Pure helpers
(`getCmdPath`, `goClean`, `goJoin`) are translated directly from the Go
source and the Go standard library semantics of `filepath.Clean`/`Join`.
-/

namespace Shp

/-- Arguments of a `mount(2)` call, mirroring Go's
`syscall.Mount(source, target, fstype, flags, data)`. -/
structure MountSpec where
  source : String
  target : String
  fstype : String
  flags : Nat
  data : String
deriving DecidableEq, Repr

/-- Observable events of a run: each syscall with its arguments and
whether it succeeded, each line written to standard output, process
spawns, and process exits.  `spawnWait` is Go's `exec.Cmd.Run` (start a
separate child process and wait for it); `execImage` is a process-image
replacement in the style of `syscall.Exec` (never returns on success).
The source only ever performs `spawnWait`; `execImage` exists so that
theorems can state that no image replacement happens. -/
inductive Ev where
  | print (s : String)
  | sysStat (path : String) (ok : Bool)
  | sysMkdirAll (path : String) (mode : Nat) (ok : Bool)
  | sysPivotRoot (newRoot oldRoot : String) (ok : Bool)
  | sysChdir (path : String) (ok : Bool)
  | sysUnmount (path : String) (flags : Nat) (ok : Bool)
  | sysRemove (path : String) (ok : Bool)
  | sysChroot (path : String) (ok : Bool)
  | sysMount (spec : MountSpec) (ok : Bool)
  | spawnNamespaced (prog : String) (argv : List String) (cloneFlags : Nat)
  | spawnWait (prog : String) (argv : List String)
  | execImage (prog : String) (argv : List String)
  | exitProc (code : Nat)
deriving DecidableEq, Repr

/-- `const oldRootDir = ".old_root"` from the source. -/
def oldRootDir : String := ".old_root"

/-- `const procFS = "proc"` from the source. -/
def procFS : String := "proc"

/-- `syscall.CLONE_NEWUTS` on linux/amd64. -/
def cloneNewuts : Nat := 0x04000000

/-- `syscall.CLONE_NEWPID` on linux/amd64. -/
def cloneNewpid : Nat := 0x20000000

/-- `syscall.CLONE_NEWNS` on linux/amd64. -/
def cloneNewns : Nat := 0x00020000

/-- The namespace flag set requested by `run`:
`CLONE_NEWUTS | CLONE_NEWPID | CLONE_NEWNS`. -/
def cloneFlags : Nat := cloneNewuts ||| cloneNewpid ||| cloneNewns

/-- `syscall.MNT_DETACH`. -/
def mntDetach : Nat := 2

/-- Split a character list at every `'/'`, keeping empty fields, as Go's
`strings.Split(s, "/")` does. -/
def splitSlash : List Char → List (List Char)
  | [] => [[]]
  | c :: rest =>
    if c = '/' then [] :: splitSlash rest
    else
      match splitSlash rest with
      | h :: t => (c :: h) :: t
      | [] => [[c]]

/-- Go `strings.Split(s, "/")`: the list of slash-separated fields of
`s`, empty fields included. -/
def goSplitSlash (s : String) : List String :=
  (splitSlash s.data).map fun l => String.mk l

/-- One step of the element-stack pass of Go's `path/filepath.Clean`:
skip empty and `"."` elements, let `".."` pop a non-`".."` entry (or
vanish at the root of a rooted path), push everything else. -/
def cleanStep (rooted : Bool) (stack : List (List Char)) (elem : List Char) :
    List (List Char) :=
  if elem = [] ∨ elem = ['.'] then stack
  else if elem = ['.', '.'] then
    match stack with
    | [] => if rooted then [] else [['.', '.']]
    | top :: rest => if top = ['.', '.'] then elem :: top :: rest else rest
  else elem :: stack

/-- Interleave `'/'` between path elements. -/
def joinSlash : List (List Char) → List Char
  | [] => []
  | [e] => e
  | e :: f :: rest => e ++ '/' :: joinSlash (f :: rest)

/-- Go `path/filepath.Clean` for slash-separated (unix) paths: collapse
repeated separators, eliminate `"."` and resolvable `".."` elements,
keep rootedness; the empty path cleans to `"."`. -/
def goClean (s : String) : String :=
  if s = "" then "."
  else
    let cs := s.data
    let rooted := cs.head? = some '/'
    let stack := (splitSlash cs).foldl (cleanStep rooted) []
    let body := joinSlash stack.reverse
    if rooted then String.mk ('/' :: body)
    else if body = [] then "." else String.mk body

/-- Go `path/filepath.Join` restricted to two elements: empty elements
are dropped, the rest are joined with `"/"` and the result is cleaned;
all-empty input yields the empty string. -/
def goJoin (a b : String) : String :=
  if a = "" then (if b = "" then "" else goClean b)
  else if b = "" then goClean a
  else goClean (a ++ "/" ++ b)

/-- `getCmdPath` from the source: if `strings.Split(cmdPath, "/")` has
more than one field the path is returned verbatim after a WARNING print;
otherwise an INFO line is printed and `filepath.Join("/bin/", cmdPath)`
is returned.  The first component is the list of lines printed. -/
def getCmdPath (cmdPath : String) : List Ev × String :=
  if 1 < (goSplitSlash cmdPath).length then
    ([Ev.print ("WARNING! Absolute path resolution for [" ++ cmdPath ++
        "] will be done based on the new rootfs (inside container).\n")],
      cmdPath)
  else
    ([Ev.print ("INFO: Resolving command [" ++ cmdPath ++
        "] inside /bin of the new rootfs.\n")],
      goJoin "/bin/" cmdPath)

/-- `validateRootfs` from the source: `os.Stat(rootfs)`; on failure the
wrapped error `rootfs path does not exist: <path>: <cause>` is returned.
`stat = none` means the path exists; `stat = some e` carries the stat
error text. -/
def validateRootfs (stat : Option String) (rootfs : String) :
    List Ev × Option String :=
  match stat with
  | some e =>
    ([Ev.sysStat rootfs false],
      some ("rootfs path does not exist: " ++ rootfs ++ ": " ++ e))
  | none => ([Ev.sysStat rootfs true], none)

/-- `handle` from the source: on a non-nil error print
`"\n<error>\n"` and `os.Exit(1)`; on nil do nothing. -/
def handle : Option String → List Ev
  | some e => [Ev.print ("\n" ++ e ++ "\n"), Ev.exitProc 1]
  | none => []

instance {ε α : Type} [DecidableEq ε] [DecidableEq α] :
    DecidableEq (Except ε α) := fun x y =>
  match x, y with
  | Except.error a, Except.error b =>
    if h : a = b then isTrue (by rw [h])
    else isFalse (fun hh => h (by injection hh))
  | Except.ok a, Except.ok b =>
    if h : a = b then isTrue (by rw [h])
    else isFalse (fun hh => h (by injection hh))
  | Except.error _, Except.ok _ => isFalse (fun hh => by injection hh)
  | Except.ok _, Except.error _ => isFalse (fun hh => by injection hh)

/-- Outcomes of the OS calls made by `PivotRootIsolator.Isolate`:
`filepath.Abs`, `os.MkdirAll`, `syscall.PivotRoot`, `syscall.Chdir`,
`syscall.Unmount`, `os.Remove`.  `none` means success, `some e` failure
with error text `e`. -/
structure PivotOracle where
  abs : Except String String
  mkdir : Option String
  pivot : Option String
  chdir : Option String
  unmount : Option String
  remove : Option String
deriving DecidableEq, Repr

/-- `(&PivotRootIsolator{}).Isolate(rootfs)` from the source, as a trace
and a result.  Failures of `Abs`, `MkdirAll`, `PivotRoot` and `Chdir`
abort with a wrapped error; failures of the two cleanup calls
(`Unmount` with `MNT_DETACH`, `Remove`) only print a warning and the
method still returns nil. -/
def pivotIsolate (o : PivotOracle) (rootfs : String) :
    List Ev × Option String :=
  match o.abs with
  | Except.error e =>
    ([], some ("cannot get absolute path for " ++ rootfs ++ ": " ++ e))
  | Except.ok absNewRoot =>
    let oldRoot := goJoin absNewRoot oldRootDir
    match o.mkdir with
    | some e =>
      ([Ev.sysMkdirAll oldRoot 448 false],
        some ("cannot create old_root directory: " ++ e))
    | none =>
      match o.pivot with
      | some e =>
        ([Ev.sysMkdirAll oldRoot 448 true,
          Ev.sysPivotRoot absNewRoot oldRoot false],
          some ("pivot_root failed: " ++ e))
      | none =>
        match o.chdir with
        | some e =>
          ([Ev.sysMkdirAll oldRoot 448 true,
            Ev.sysPivotRoot absNewRoot oldRoot true,
            Ev.sysChdir "/" false],
            some ("chdir to / failed after pivot_root: " ++ e))
        | none =>
          let uEvs :=
            match o.unmount with
            | some e =>
              [Ev.sysUnmount ("/" ++ oldRootDir) mntDetach false,
                Ev.print ("Warning: unmounting old root failed: " ++ e ++ "\n")]
            | none => [Ev.sysUnmount ("/" ++ oldRootDir) mntDetach true]
          let rEvs :=
            match o.remove with
            | some e =>
              [Ev.sysRemove ("/" ++ oldRootDir) false,
                Ev.print ("Warning: removing old root directory failed: " ++
                  e ++ "\n")]
            | none => [Ev.sysRemove ("/" ++ oldRootDir) true]
          ([Ev.sysMkdirAll oldRoot 448 true,
            Ev.sysPivotRoot absNewRoot oldRoot true,
            Ev.sysChdir "/" true] ++ uEvs ++ rEvs ++
            [Ev.print "Successfully using pivot_root\n"], none)

/-- Outcomes of the OS calls made by `ChrootIsolator.Isolate`:
`syscall.Chroot` and the subsequent `syscall.Chdir`. -/
structure ChrootOracle where
  chroot : Option String
  chdir : Option String
deriving DecidableEq, Repr

/-- `(&ChrootIsolator{}).Isolate(rootfs)` from the source. -/
def chrootIsolate (o : ChrootOracle) (rootfs : String) :
    List Ev × Option String :=
  match o.chroot with
  | some e => ([Ev.sysChroot rootfs false], some ("chroot failed: " ++ e))
  | none =>
    match o.chdir with
    | some e =>
      ([Ev.sysChroot rootfs true, Ev.sysChdir "/" false],
        some ("chdir to / failed after chroot: " ++ e))
    | none =>
      ([Ev.sysChroot rootfs true, Ev.sysChdir "/" true,
        Ev.print "Using chroot for filesystem isolation\n"], none)

/-- The one mount specification the program ever uses:
`syscall.Mount(procFS, procFS, procFS, 0, "")`. -/
def procMountSpec : MountSpec :=
  { source := procFS, target := procFS, fstype := procFS,
    flags := 0, data := "" }

/-- `mountProc` from the source: perform the proc mount and return its
result (`res = none` means the mount syscall succeeded). -/
def mountProc (res : Option String) : List Ev × Option String :=
  ([Ev.sysMount procMountSpec res.isNone], res)

/-- Outcomes of the OS calls made by `child`: `os.Stat` for validation,
the pivot_root strategy's calls, the chroot strategy's calls, the proc
mount, and `cmd.Run()` on the target command (`run = none`: the target
was started and exited 0). -/
structure ChildOracle where
  stat : Option String
  pv : PivotOracle
  ch : ChrootOracle
  mount : Option String
  run : Option String
deriving DecidableEq, Repr

/-- Tail of `child` after isolation has succeeded:
`handle(mountProc())` then `handle(cmd.Run())`; falling off the end of
`child` returns to `main`, which returns, so the process exits 0. -/
def afterIso (o : ChildOracle) (binPath : String) (crest : List String) :
    List Ev :=
  (mountProc o.mount).1 ++
    match o.mount with
    | some e => handle (some e)
    | none =>
      Ev.spawnWait binPath crest ::
        match o.run with
        | some e => handle (some e)
        | none => [Ev.exitProc 0]

/-- The fallback branch of `child`: run the chroot strategy and feed its
result to `handle`; on success continue with `afterIso`. -/
def fallback (o : ChildOracle) (rootfs binPath : String)
    (crest : List String) : List Ev :=
  (chrootIsolate o.ch rootfs).1 ++
    match (chrootIsolate o.ch rootfs).2 with
    | some e => handle (some e)
    | none => afterIso o binPath crest

/-- `child(args)` from the source: usage check, `validateRootfs`,
`getCmdPath`, pivot_root attempt with unconditional chroot fallback on
failure, proc mount, and the spawn-and-wait of the target command. -/
def childTrace (o : ChildOracle) (args : List String) : List Ev :=
  match args with
  | rootfs :: c0 :: crest =>
    (validateRootfs o.stat rootfs).1 ++
      match (validateRootfs o.stat rootfs).2 with
      | some e => handle (some e)
      | none =>
        (getCmdPath c0).1 ++
          ((pivotIsolate o.pv rootfs).1 ++
            match (pivotIsolate o.pv rootfs).2 with
            | some e =>
              Ev.print ("pivot_root failed: " ++ e ++
                  "\nFalling back to chroot...\n") ::
                fallback o rootfs (getCmdPath c0).2 crest
            | none => afterIso o (getCmdPath c0).2 crest)
  | _ => [Ev.print "usage: shp child <rootfs_path> <cmd> [options]\n",
      Ev.exitProc 1]

/-- Outcomes of the OS interactions of `run`: whether starting the
namespaced re-exec failed (`start = some e`), and, if it started, the
exit code of the spawned child process. -/
structure RunOracle where
  start : Option String
  childCode : Nat
deriving DecidableEq, Repr

/-- The error value of `cmd.Run()` in `run`: a start failure verbatim,
or Go's `exec.ExitError` text `exit status <n>` when the child exited
with a non-zero code `n`, or nil when the child exited 0. -/
def runErr (o : RunOracle) : Option String :=
  match o.start with
  | some e => some e
  | none =>
    if o.childCode = 0 then none
    else some ("exit status " ++ toString o.childCode)

/-- `run(args)` from the source: usage check (exit 1), spawn
`/proc/self/exe child <args...>` with the namespace clone flags, and
`handle(cmd.Run())`; a normal return exits the process with code 0. -/
def runTrace (o : RunOracle) (args : List String) : List Ev :=
  if args.length < 2 then
    [Ev.print "usage: shp run <rootfs_path> <cmd> [options]\n", Ev.exitProc 1]
  else
    Ev.spawnNamespaced "/proc/self/exe" ("child" :: args) cloneFlags ::
      match runErr o with
      | some e => handle (some e)
      | none => [Ev.exitProc 0]

/-- The exit codes recorded in a trace, in order. -/
def exitCodes (t : List Ev) : List Nat :=
  t.filterMap fun e =>
    match e with
    | Ev.exitProc c => some c
    | _ => none

/-- The exit code a trace ends with (the last `exitProc` event). -/
def exitCodeOf (t : List Ev) : Option Nat := (exitCodes t).getLast?

/-- `cmd.Run()`'s error as observed by the waiting `run` parent, given
the child's exit code. -/
def waitResult : Option Nat → Option String
  | some 0 => none
  | some (n + 1) => some ("exit status " ++ toString (n + 1))
  | none => none

/-- The whole two-process launch on a `run` invocation: the launcher's
namespaced spawn, then (when the spawn starts) the Init child's own
trace, then the launcher's handling of the child's exit status. -/
def pipelineTrace (co : ChildOracle) (start : Option String)
    (args : List String) : List Ev :=
  if args.length < 2 then
    [Ev.print "usage: shp run <rootfs_path> <cmd> [options]\n", Ev.exitProc 1]
  else
    Ev.spawnNamespaced "/proc/self/exe" ("child" :: args) cloneFlags ::
      match start with
      | some e => handle (some e)
      | none =>
        childTrace co args ++
          match waitResult (exitCodeOf (childTrace co args)) with
          | some e => handle (some e)
          | none => [Ev.exitProc 0]

/-- `main` from the source: with fewer than two arguments print usage
and return (process exit 0); dispatch `run` and `child` on
`os.Args[1]`; any other subcommand prints usage and returns (process
exit 0). -/
def mainTrace (ro : RunOracle) (co : ChildOracle) (argv : List String) :
    List Ev :=
  match argv with
  | _ :: a1 :: rest =>
    if a1 = "run" then runTrace ro rest
    else if a1 = "child" then childTrace co rest
    else [Ev.print "usage: shp run <rootfs_path> <cmd> [options]\n",
        Ev.exitProc 0]
  | _ => [Ev.print "usage: shp run <rootfs_path> <cmd> [options]\n",
      Ev.exitProc 0]

/-- Whether a trace contains a process-image replacement event. -/
def hasExecImage (t : List Ev) : Bool :=
  t.any fun e =>
    match e with
    | Ev.execImage _ _ => true
    | _ => false

/-- Event kinds that `pivotIsolate` can emit. -/
def isPivotEv : Ev → Bool
  | Ev.sysMkdirAll _ _ _ => true
  | Ev.sysPivotRoot _ _ _ => true
  | Ev.sysChdir _ _ => true
  | Ev.sysUnmount _ _ _ => true
  | Ev.sysRemove _ _ => true
  | Ev.print _ => true
  | _ => false

/-- Event kinds that `chrootIsolate` can emit. -/
def isChrootEv : Ev → Bool
  | Ev.sysChroot _ _ => true
  | Ev.sysChdir _ _ => true
  | Ev.print _ => true
  | _ => false

/-- Event kinds that the post-isolation tail of `child` can emit. -/
def isAfterEv : Ev → Bool
  | Ev.sysMount _ _ => true
  | Ev.print _ => true
  | Ev.exitProc _ => true
  | Ev.spawnWait _ _ => true
  | _ => false

/-- Every event of the child role except a process-image replacement. -/
def isProgEv : Ev → Bool
  | Ev.execImage _ _ => false
  | _ => true

theorem not_mem_of_all {p : Ev → Bool} {t : List Ev} (h : t.all p = true)
    {e : Ev} (he : p e = false) : e ∉ t := by
  intro hm
  have h2 := List.all_eq_true.mp h e hm
  rw [he] at h2
  exact Bool.false_ne_true h2

theorem all_mono {p q : Ev → Bool} (hpq : ∀ e, p e = true → q e = true)
    {t : List Ev} (h : t.all p = true) : t.all q = true :=
  List.all_eq_true.mpr fun e he => hpq e (List.all_eq_true.mp h e he)

theorem pivot_evs (o : PivotOracle) (r : String) :
    ((pivotIsolate o r).1).all isPivotEv = true := by
  obtain ⟨abs, mk, pv, cd, um, rm⟩ := o
  cases abs <;> cases mk <;> cases pv <;> cases cd <;> cases um <;> cases rm <;>
    simp [pivotIsolate, isPivotEv]

theorem chroot_evs (o : ChrootOracle) (r : String) :
    ((chrootIsolate o r).1).all isChrootEv = true := by
  obtain ⟨c, d⟩ := o
  cases c <;> cases d <;> simp [chrootIsolate, isChrootEv]

theorem handle_evs (r : Option String) :
    (handle r).all isAfterEv = true := by
  cases r <;> simp [handle, isAfterEv]

theorem afterIso_evs (o : ChildOracle) (b : String) (crest : List String) :
    (afterIso o b crest).all isAfterEv = true := by
  unfold afterIso mountProc
  cases o.mount <;> cases o.run <;> simp [handle, isAfterEv]

theorem fallback_evs (o : ChildOracle) (rootfs b : String)
    (crest : List String) :
    (fallback o rootfs b crest).all
      (fun e => isChrootEv e || isAfterEv e) = true := by
  unfold fallback
  rw [List.all_append]
  refine (Bool.and_eq_true _ _).mpr ⟨?_, ?_⟩
  · exact all_mono (fun e he => by rw [he]; rfl) (chroot_evs o.ch rootfs)
  · cases (chrootIsolate o.ch rootfs).2 with
    | none =>
      exact all_mono (fun e he => by rw [he, Bool.or_true])
        (afterIso_evs o b crest)
    | some e2 =>
      exact all_mono (fun e he => by rw [he, Bool.or_true]) (handle_evs (some e2))

theorem chroot_head (o : ChrootOracle) (r : String) :
    ∃ t, (chrootIsolate o r).1 = Ev.sysChroot r o.chroot.isNone :: t := by
  obtain ⟨c, d⟩ := o
  cases c <;> cases d <;> exact ⟨_, rfl⟩

theorem cmdpath_shape (c : String) :
    ∃ s, (getCmdPath c).1 = [Ev.print s] := by
  unfold getCmdPath
  split <;> exact ⟨_, rfl⟩

/-- C1: whenever the pivot_root strategy returns a failure with detail
`e` (whatever its root path and whichever of its steps failed), `child`
prints a warning containing `e` and immediately invokes the chroot
strategy, and no process exit occurs before that warning; the fallback
is unconditional in the oracle and in the input. -/
theorem claim1_fallback_unconditional (o : ChildOracle)
    (rootfs c0 : String) (crest : List String) (e : String)
    (hstat : o.stat = none)
    (hpiv : (pivotIsolate o.pv rootfs).2 = some e) :
    ∃ t₁ t₂,
      childTrace o (rootfs :: c0 :: crest) =
        t₁ ++ Ev.print ("pivot_root failed: " ++ e ++
            "\nFalling back to chroot...\n") ::
          Ev.sysChroot rootfs o.ch.chroot.isNone :: t₂ ∧
      ∀ c, Ev.exitProc c ∉ t₁ := by
  obtain ⟨t, ht⟩ := chroot_head o.ch rootfs
  obtain ⟨ws, hws⟩ := cmdpath_shape c0
  refine ⟨Ev.sysStat rootfs true ::
      ((getCmdPath c0).1 ++ (pivotIsolate o.pv rootfs).1),
    t ++ (match (chrootIsolate o.ch rootfs).2 with
      | some e2 => handle (some e2)
      | none => afterIso o (getCmdPath c0).2 crest), ?_, ?_⟩
  · simp only [childTrace, validateRootfs, hstat, hpiv, fallback, ht,
      List.cons_append, List.append_assoc, List.nil_append]
  · intro c hc
    rw [hws] at hc
    rcases List.mem_cons.mp hc with h | h
    · exact Ev.noConfusion h
    rcases List.mem_append.mp h with h2 | h2
    · exact Ev.noConfusion (List.mem_singleton.mp h2)
    · exact absurd h2 (not_mem_of_all (pivot_evs o.pv rootfs) rfl)

/-- C2: when the pivot_root strategy has failed and the chroot strategy
also fails, `child` exits with code 1 and its trace contains no proc
mount, no spawn of the target command, and no image replacement. -/
theorem claim2_legacy_failure_fatal (o : ChildOracle)
    (rootfs c0 : String) (crest : List String) (e e2 : String)
    (hstat : o.stat = none)
    (hpiv : (pivotIsolate o.pv rootfs).2 = some e)
    (hch : (chrootIsolate o.ch rootfs).2 = some e2) :
    exitCodeOf (childTrace o (rootfs :: c0 :: crest)) = some 1 ∧
    (∀ s ok, Ev.sysMount s ok ∉ childTrace o (rootfs :: c0 :: crest)) ∧
    (∀ p a, Ev.spawnWait p a ∉ childTrace o (rootfs :: c0 :: crest)) ∧
    (∀ p a, Ev.execImage p a ∉ childTrace o (rootfs :: c0 :: crest)) := by
  obtain ⟨ws, hws⟩ := cmdpath_shape c0
  have hT : childTrace o (rootfs :: c0 :: crest) =
      Ev.sysStat rootfs true :: Ev.print ws ::
        ((pivotIsolate o.pv rootfs).1 ++
          Ev.print ("pivot_root failed: " ++ e ++
              "\nFalling back to chroot...\n") ::
            ((chrootIsolate o.ch rootfs).1 ++
              [Ev.print ("\n" ++ e2 ++ "\n"), Ev.exitProc 1])) := by
    simp only [childTrace, validateRootfs, hstat, hpiv, fallback, hch, handle,
      hws, List.cons_append, List.append_assoc, List.nil_append,
      List.singleton_append]
  rw [hT]
  have hp : exitCodes (pivotIsolate o.pv rootfs).1 = [] := by
    rw [exitCodes, List.filterMap_eq_nil_iff]
    intro a ha
    have h2 := List.all_eq_true.mp (pivot_evs o.pv rootfs) a ha
    cases a <;> simp_all [isPivotEv]
  have hc : exitCodes (chrootIsolate o.ch rootfs).1 = [] := by
    rw [exitCodes, List.filterMap_eq_nil_iff]
    intro a ha
    have h2 := List.all_eq_true.mp (chroot_evs o.ch rootfs) a ha
    cases a <;> simp_all [isChrootEv]
  refine ⟨?_, ?_, ?_, ?_⟩
  · rw [exitCodes] at hp hc
    simp [exitCodeOf, exitCodes, List.filterMap_append, hp, hc]
  · intro s ok hcm
    rcases List.mem_cons.mp hcm with h | h
    · exact Ev.noConfusion h
    rcases List.mem_cons.mp h with h | h
    · exact Ev.noConfusion h
    rcases List.mem_append.mp h with h2 | h2
    · exact absurd h2 (not_mem_of_all (pivot_evs o.pv rootfs) rfl)
    rcases List.mem_cons.mp h2 with h3 | h3
    · exact Ev.noConfusion h3
    rcases List.mem_append.mp h3 with h4 | h4
    · exact absurd h4 (not_mem_of_all (chroot_evs o.ch rootfs) rfl)
    · simp at h4
  · intro p a hcm
    rcases List.mem_cons.mp hcm with h | h
    · exact Ev.noConfusion h
    rcases List.mem_cons.mp h with h | h
    · exact Ev.noConfusion h
    rcases List.mem_append.mp h with h2 | h2
    · exact absurd h2 (not_mem_of_all (pivot_evs o.pv rootfs) rfl)
    rcases List.mem_cons.mp h2 with h3 | h3
    · exact Ev.noConfusion h3
    rcases List.mem_append.mp h3 with h4 | h4
    · exact absurd h4 (not_mem_of_all (chroot_evs o.ch rootfs) rfl)
    · simp at h4
  · intro p a hcm
    rcases List.mem_cons.mp hcm with h | h
    · exact Ev.noConfusion h
    rcases List.mem_cons.mp h with h | h
    · exact Ev.noConfusion h
    rcases List.mem_append.mp h with h2 | h2
    · exact absurd h2 (not_mem_of_all (pivot_evs o.pv rootfs) rfl)
    rcases List.mem_cons.mp h2 with h3 | h3
    · exact Ev.noConfusion h3
    rcases List.mem_append.mp h3 with h4 | h4
    · exact absurd h4 (not_mem_of_all (chroot_evs o.ch rootfs) rfl)
    · simp at h4

/-- Witness for C1 at a concrete input: the pivot_root syscall itself
fails with `EINVAL`, validation has passed, and the fallback fires. -/
theorem claim1_witness :
    ((⟨none, ⟨Except.ok "/r", none, some "EINVAL", none, none, none⟩,
        ⟨none, none⟩, none, none⟩ : ChildOracle).stat = none ∧
      (pivotIsolate (⟨none, ⟨Except.ok "/r", none, some "EINVAL", none, none,
          none⟩, ⟨none, none⟩, none, none⟩ : ChildOracle).pv "r").2 =
        some "pivot_root failed: EINVAL") ∧
    ∃ t₁ t₂,
      childTrace (⟨none, ⟨Except.ok "/r", none, some "EINVAL", none, none,
          none⟩, ⟨none, none⟩, none, none⟩ : ChildOracle) ["r", "ls"] =
        t₁ ++ Ev.print ("pivot_root failed: " ++ "pivot_root failed: EINVAL" ++
            "\nFalling back to chroot...\n") ::
          Ev.sysChroot "r"
            ((⟨none, ⟨Except.ok "/r", none, some "EINVAL", none, none, none⟩,
              ⟨none, none⟩, none, none⟩ : ChildOracle)).ch.chroot.isNone ::
            t₂ ∧
      ∀ c, Ev.exitProc c ∉ t₁ :=
  ⟨⟨rfl, by decide⟩,
    claim1_fallback_unconditional
      ⟨none, ⟨Except.ok "/r", none, some "EINVAL", none, none, none⟩,
        ⟨none, none⟩, none, none⟩ "r" "ls" [] "pivot_root failed: EINVAL"
      rfl (by decide)⟩

/-- Witness for C2 at a concrete input: pivot_root fails with `EINVAL`
and chroot fails with `EPERM`; the child exits 1 with no mount, no
target spawn and no image replacement. -/
theorem claim2_witness :
    ((⟨none, ⟨Except.ok "/r", none, some "EINVAL", none, none, none⟩,
        ⟨some "EPERM", none⟩, none, none⟩ : ChildOracle).stat = none ∧
      (pivotIsolate (⟨none, ⟨Except.ok "/r", none, some "EINVAL", none, none,
          none⟩, ⟨some "EPERM", none⟩, none, none⟩ : ChildOracle).pv "r").2 =
        some "pivot_root failed: EINVAL" ∧
      (chrootIsolate (⟨none, ⟨Except.ok "/r", none, some "EINVAL", none, none,
          none⟩, ⟨some "EPERM", none⟩, none, none⟩ : ChildOracle).ch "r").2 =
        some "chroot failed: EPERM") ∧
    (exitCodeOf (childTrace (⟨none, ⟨Except.ok "/r", none, some "EINVAL",
        none, none, none⟩, ⟨some "EPERM", none⟩, none, none⟩ : ChildOracle)
        ["r", "ls"]) = some 1 ∧
      (∀ s ok, Ev.sysMount s ok ∉ childTrace (⟨none, ⟨Except.ok "/r", none,
        some "EINVAL", none, none, none⟩, ⟨some "EPERM", none⟩, none,
        none⟩ : ChildOracle) ["r", "ls"]) ∧
      (∀ p a, Ev.spawnWait p a ∉ childTrace (⟨none, ⟨Except.ok "/r", none,
        some "EINVAL", none, none, none⟩, ⟨some "EPERM", none⟩, none,
        none⟩ : ChildOracle) ["r", "ls"]) ∧
      (∀ p a, Ev.execImage p a ∉ childTrace (⟨none, ⟨Except.ok "/r", none,
        some "EINVAL", none, none, none⟩, ⟨some "EPERM", none⟩, none,
        none⟩ : ChildOracle) ["r", "ls"])) :=
  ⟨⟨rfl, by decide, by decide⟩,
    claim2_legacy_failure_fatal
      ⟨none, ⟨Except.ok "/r", none, some "EINVAL", none, none, none⟩,
        ⟨some "EPERM", none⟩, none, none⟩ "r" "ls" []
      "pivot_root failed: EINVAL" "chroot failed: EPERM"
      rfl (by decide) (by decide)⟩

/-- C3 (code-bug evidence): when the spawned Init process exits with
code 2, `run` feeds the resulting `exit status 2` error to `handle`,
which exits with the fixed code 1 — so the Launcher's exit code (1)
differs from the Init process's exit code (2), contradicting the
claimed propagation. -/
theorem claim3_exit_code_not_propagated :
    runTrace ⟨none, 2⟩ ["r", "c"] =
      [Ev.spawnNamespaced "/proc/self/exe" ["child", "r", "c"] cloneFlags,
        Ev.print "\nexit status 2\n", Ev.exitProc 1] ∧
    exitCodeOf (runTrace ⟨none, 2⟩ ["r", "c"]) = some 1 ∧ (1 : Nat) ≠ 2 := by
  decide

theorem pivot_prog : ∀ e, isPivotEv e = true → isProgEv e = true := by
  intro e he
  cases e <;> simp_all [isPivotEv, isProgEv]

theorem after_prog : ∀ e, isAfterEv e = true → isProgEv e = true := by
  intro e he
  cases e <;> simp_all [isAfterEv, isProgEv]

theorem fb_prog : ∀ e, (isChrootEv e || isAfterEv e) = true →
    isProgEv e = true := by
  intro e he
  cases e <;> simp_all [isChrootEv, isAfterEv, isProgEv]

theorem child_evs (o : ChildOracle) (args : List String) :
    (childTrace o args).all isProgEv = true := by
  rcases args with _ | ⟨rootfs, _ | ⟨c0, crest⟩⟩
  · simp [childTrace, isProgEv]
  · simp [childTrace, isProgEv]
  obtain ⟨ws, hws⟩ := cmdpath_shape c0
  cases hstat : o.stat with
  | some e =>
    simp [childTrace, validateRootfs, hstat, handle, isProgEv]
  | none =>
    rw [childTrace]
    simp only [validateRootfs, hstat, hws]
    rw [List.all_append]
    refine (Bool.and_eq_true _ _).mpr ⟨by simp [isProgEv], ?_⟩
    rw [List.all_append]
    refine (Bool.and_eq_true _ _).mpr ⟨by simp [isProgEv], ?_⟩
    rw [List.all_append]
    refine (Bool.and_eq_true _ _).mpr
      ⟨all_mono pivot_prog (pivot_evs o.pv rootfs), ?_⟩
    cases hpv : (pivotIsolate o.pv rootfs).2 with
    | some e =>
      simp only [List.all_cons, isProgEv, Bool.true_and]
      exact all_mono fb_prog (fallback_evs o rootfs (getCmdPath c0).2 crest)
    | none =>
      exact all_mono after_prog (afterIso_evs o (getCmdPath c0).2 crest)

theorem hasExecImage_eq_false {t : List Ev} (h : t.all isProgEv = true) :
    hasExecImage t = false := by
  rw [hasExecImage, List.any_eq_false]
  intro e he
  have h2 := List.all_eq_true.mp h e he
  cases e <;> simp_all [isProgEv]

/-- C4 counterexample: on a fully successful run (`root "r"`, command
`ls`, every OS call succeeding, the target exiting 0) the child's trace
contains no process-image replacement, launches the target with a
spawn-and-wait, and continues past the launch to its own `exitProc 0` —
so the launch step does return on success. -/
theorem claim4_counterexample :
    hasExecImage (childTrace (⟨none, ⟨Except.ok "/r", none, none, none, none,
        none⟩, ⟨none, none⟩, none, none⟩ : ChildOracle) ["r", "ls"]) =
      false ∧
    Ev.spawnWait "/bin/ls" [] ∈
      childTrace (⟨none, ⟨Except.ok "/r", none, none, none, none, none⟩,
        ⟨none, none⟩, none, none⟩ : ChildOracle) ["r", "ls"] ∧
    (childTrace (⟨none, ⟨Except.ok "/r", none, none, none, none, none⟩,
        ⟨none, none⟩, none, none⟩ : ChildOracle) ["r", "ls"]).getLast? =
      some (Ev.exitProc 0) := by
  decide

/-- C4 amended: the final launch step never replaces the process image
(no trace of `child` contains an `execImage` event); instead, on a
fully successful path the resolved target is started with a
spawn-and-wait and the Init process then exits 0 itself. -/
theorem claim4_spawn_wait_amended :
    (∀ (o : ChildOracle) (args : List String),
      hasExecImage (childTrace o args) = false) ∧
    ∀ (o : ChildOracle) (rootfs c0 : String) (crest : List String),
      o.stat = none → (pivotIsolate o.pv rootfs).2 = none →
      o.mount = none → o.run = none →
      ∃ t, childTrace o (rootfs :: c0 :: crest) =
        t ++ [Ev.spawnWait (getCmdPath c0).2 crest, Ev.exitProc 0] := by
  constructor
  · intro o args
    exact hasExecImage_eq_false (child_evs o args)
  · intro o rootfs c0 crest hstat hpiv hm hr
    obtain ⟨ws, hws⟩ := cmdpath_shape c0
    refine ⟨Ev.sysStat rootfs true :: Ev.print ws ::
      ((pivotIsolate o.pv rootfs).1 ++ [Ev.sysMount procMountSpec true]), ?_⟩
    simp only [childTrace, validateRootfs, hstat, hpiv, hws, afterIso,
      mountProc, hm, hr, handle, Option.isNone_none, List.cons_append,
      List.append_assoc, List.nil_append, List.singleton_append]

/-- Witness for C4's amended theorem at a concrete fully successful
input. -/
theorem claim4_witness :
    ((⟨none, ⟨Except.ok "/r", none, none, none, none, none⟩, ⟨none, none⟩,
        none, none⟩ : ChildOracle).stat = none ∧
      (pivotIsolate (⟨none, ⟨Except.ok "/r", none, none, none, none, none⟩,
        ⟨none, none⟩, none, none⟩ : ChildOracle).pv "r").2 = none) ∧
    ∃ t, childTrace (⟨none, ⟨Except.ok "/r", none, none, none, none, none⟩,
        ⟨none, none⟩, none, none⟩ : ChildOracle) ["r", "ls"] =
      t ++ [Ev.spawnWait (getCmdPath "ls").2 [], Ev.exitProc 0] :=
  ⟨⟨rfl, by decide⟩,
    claim4_spawn_wait_amended.2
      ⟨none, ⟨Except.ok "/r", none, none, none, none, none⟩, ⟨none, none⟩,
        none, none⟩ "r" "ls" [] rfl (by decide) rfl rfl⟩

/-- C5 counterexample: on `run` with a non-existent root path the very
first event of the combined two-process trace is the namespace-creating
spawn, and the validation stat call only happens afterwards (at index
1, inside the Init child) — so validation does not precede the
namespace-creation syscall. -/
theorem claim5_counterexample :
    (pipelineTrace (⟨some "ENOENT", ⟨Except.ok "/nox", none, none, none, none,
        none⟩, ⟨none, none⟩, none, none⟩ : ChildOracle) none
        ["nox", "ls"]).head? =
      some (Ev.spawnNamespaced "/proc/self/exe" ["child", "nox", "ls"]
        cloneFlags) ∧
    (pipelineTrace (⟨some "ENOENT", ⟨Except.ok "/nox", none, none, none, none,
        none⟩, ⟨none, none⟩, none, none⟩ : ChildOracle) none
        ["nox", "ls"]).get? 1 = some (Ev.sysStat "nox" false) := by
  decide

/-- C5 amended: a non-existent root path is rejected by validation with
a fatal error before any isolation syscall — the whole two-process
trace contains no pivot_root, no chroot and no mount — and both
processes exit 1; the namespace-creating spawn, however, is performed
by the Launcher before the Init role validates. -/
theorem claim5_validation_precedes_isolation (co : ChildOracle)
    (rootfs c0 e : String) (crest : List String)
    (hstat : co.stat = some e) :
    pipelineTrace co none (rootfs :: c0 :: crest) =
      [Ev.spawnNamespaced "/proc/self/exe" ("child" :: rootfs :: c0 :: crest)
          cloneFlags,
        Ev.sysStat rootfs false,
        Ev.print ("\n" ++ ("rootfs path does not exist: " ++ rootfs ++ ": " ++
          e) ++ "\n"),
        Ev.exitProc 1,
        Ev.print "\nexit status 1\n",
        Ev.exitProc 1] ∧
    (∀ a b ok, Ev.sysPivotRoot a b ok ∉
      pipelineTrace co none (rootfs :: c0 :: crest)) ∧
    (∀ a ok, Ev.sysChroot a ok ∉
      pipelineTrace co none (rootfs :: c0 :: crest)) ∧
    (∀ s ok, Ev.sysMount s ok ∉
      pipelineTrace co none (rootfs :: c0 :: crest)) := by
  have hct : childTrace co (rootfs :: c0 :: crest) =
      [Ev.sysStat rootfs false,
        Ev.print ("\n" ++ ("rootfs path does not exist: " ++ rootfs ++ ": " ++
          e) ++ "\n"),
        Ev.exitProc 1] := by
    simp [childTrace, validateRootfs, hstat, handle]
  have hT : pipelineTrace co none (rootfs :: c0 :: crest) =
      [Ev.spawnNamespaced "/proc/self/exe" ("child" :: rootfs :: c0 :: crest)
          cloneFlags,
        Ev.sysStat rootfs false,
        Ev.print ("\n" ++ ("rootfs path does not exist: " ++ rootfs ++ ": " ++
          e) ++ "\n"),
        Ev.exitProc 1,
        Ev.print "\nexit status 1\n",
        Ev.exitProc 1] := by
    rw [pipelineTrace, if_neg (by simp [List.length_cons])]
    rw [hct]
    rfl
  refine ⟨hT, ?_, ?_, ?_⟩
  · intro a b ok h
    rw [hT] at h
    simp at h
  · intro a ok h
    rw [hT] at h
    simp at h
  · intro s ok h
    rw [hT] at h
    simp at h

/-- Witness for C5's amended theorem at a concrete input. -/
theorem claim5_witness :
    ((⟨some "ENOENT", ⟨Except.ok "/nox", none, none, none, none, none⟩,
        ⟨none, none⟩, none, none⟩ : ChildOracle).stat = some "ENOENT") ∧
    pipelineTrace (⟨some "ENOENT", ⟨Except.ok "/nox", none, none, none, none,
        none⟩, ⟨none, none⟩, none, none⟩ : ChildOracle) none ["nox", "ls"] =
      [Ev.spawnNamespaced "/proc/self/exe" ["child", "nox", "ls"] cloneFlags,
        Ev.sysStat "nox" false,
        Ev.print ("\n" ++ ("rootfs path does not exist: " ++ "nox" ++ ": " ++
          "ENOENT") ++ "\n"),
        Ev.exitProc 1,
        Ev.print "\nexit status 1\n",
        Ev.exitProc 1] :=
  ⟨rfl,
    (claim5_validation_precedes_isolation
      ⟨some "ENOENT", ⟨Except.ok "/nox", none, none, none, none, none⟩,
        ⟨none, none⟩, none, none⟩ "nox" "ls" "ENOENT" [] rfl).1⟩

/-- C6 counterexample: the bare command name `..` contains no path
separator, yet `getCmdPath` does not return the string `/bin/..`: Go's
`filepath.Join` cleans the joined path, collapsing it to `/`. -/
theorem claim6_counterexample :
    (getCmdPath "..").2 = "/" ∧ (getCmdPath "..").2 ≠ "/bin/" ++ ".." := by
  decide

/-- C6 amended: a command with a path separator is passed through
unchanged with the relative-resolution warning; a command without one
is rewritten to `filepath.Join("/bin/", name)` — which equals
`/bin/<name>` for ordinary names but collapses `""`, `"."` and `".."`
under path cleaning — and this resolution is performed before the
isolation attempt (its print precedes every isolation event in the
child's trace). -/
theorem claim6_cmd_rewrite_amended :
    (∀ c : String, 1 < (goSplitSlash c).length →
      (getCmdPath c).2 = c ∧
      (getCmdPath c).1 = [Ev.print ("WARNING! Absolute path resolution for ["
        ++ c ++ "] will be done based on the new rootfs (inside container).\n")]) ∧
    (∀ c : String, ¬ 1 < (goSplitSlash c).length →
      (getCmdPath c).2 = goJoin "/bin/" c ∧
      (getCmdPath c).1 = [Ev.print ("INFO: Resolving command [" ++ c ++
        "] inside /bin of the new rootfs.\n")]) ∧
    ∀ (o : ChildOracle) (rootfs c0 : String) (crest : List String),
      o.stat = none →
      ∃ t, childTrace o (rootfs :: c0 :: crest) =
        Ev.sysStat rootfs true ::
          ((getCmdPath c0).1 ++ ((pivotIsolate o.pv rootfs).1 ++ t)) := by
  refine ⟨?_, ?_, ?_⟩
  · intro c h
    rw [getCmdPath, if_pos h]
    exact ⟨rfl, rfl⟩
  · intro c h
    rw [getCmdPath, if_neg h]
    exact ⟨rfl, rfl⟩
  · intro o rootfs c0 crest hstat
    refine ⟨(match (pivotIsolate o.pv rootfs).2 with
      | some e =>
        Ev.print ("pivot_root failed: " ++ e ++
            "\nFalling back to chroot...\n") ::
          fallback o rootfs (getCmdPath c0).2 crest
      | none => afterIso o (getCmdPath c0).2 crest), ?_⟩
    simp only [childTrace, validateRootfs, hstat, List.singleton_append]

/-- Witness for C6's amended theorem: separator case `a/b`, bare case
`ls`, and the ordering fact at a concrete oracle. -/
theorem claim6_witness :
    (1 < (goSplitSlash "a/b").length ∧ (getCmdPath "a/b").2 = "a/b" ∧
      (getCmdPath "a/b").1 = [Ev.print ("WARNING! Absolute path resolution for ["
        ++ "a/b" ++ "] will be done based on the new rootfs (inside container).\n")]) ∧
    (¬ 1 < (goSplitSlash "ls").length ∧ (getCmdPath "ls").2 = goJoin "/bin/" "ls" ∧
      (getCmdPath "ls").1 = [Ev.print ("INFO: Resolving command [" ++ "ls" ++
        "] inside /bin of the new rootfs.\n")]) ∧
    ∃ t, childTrace (⟨none, ⟨Except.ok "/r", none, none, none, none, none⟩,
        ⟨none, none⟩, none, none⟩ : ChildOracle) ["r", "ls"] =
      Ev.sysStat "r" true ::
        ((getCmdPath "ls").1 ++
          ((pivotIsolate (⟨none, ⟨Except.ok "/r", none, none, none, none,
            none⟩, ⟨none, none⟩, none, none⟩ : ChildOracle).pv "r").1 ++ t)) :=
  ⟨⟨by decide, (claim6_cmd_rewrite_amended.1 "a/b" (by decide)).1,
      (claim6_cmd_rewrite_amended.1 "a/b" (by decide)).2⟩,
    ⟨by decide, (claim6_cmd_rewrite_amended.2.1 "ls" (by decide)).1,
      (claim6_cmd_rewrite_amended.2.1 "ls" (by decide)).2⟩,
    claim6_cmd_rewrite_amended.2.2
      ⟨none, ⟨Except.ok "/r", none, none, none, none, none⟩, ⟨none, none⟩,
        none, none⟩ "r" "ls" [] rfl⟩

/-- C7 counterexample: `shp bogus` prints the usage text but the
process then returns normally from `main`, exiting with code 0, not a
non-zero code. -/
theorem claim7_counterexample :
    mainTrace ⟨none, 0⟩ (⟨none, ⟨Except.ok "", none, none, none, none, none⟩,
        ⟨none, none⟩, none, none⟩ : ChildOracle) ["shp", "bogus"] =
      [Ev.print "usage: shp run <rootfs_path> <cmd> [options]\n",
        Ev.exitProc 0] ∧
    exitCodeOf (mainTrace ⟨none, 0⟩ (⟨none, ⟨Except.ok "", none, none, none,
        none, none⟩, ⟨none, none⟩, none, none⟩ : ChildOracle)
        ["shp", "bogus"]) = some 0 := by
  decide

/-- C7 amended: an invocation whose first argument is neither `run` nor
`child` (including one with no subcommand at all) prints the usage text
and exits with code 0 (a plain return from `main`), not with a non-zero
code. -/
theorem claim7_usage_exits_zero (ro : RunOracle) (co : ChildOracle)
    (argv : List String)
    (h : ∀ a0 a1 rest, argv = a0 :: a1 :: rest →
      a1 ≠ "run" ∧ a1 ≠ "child") :
    mainTrace ro co argv =
      [Ev.print "usage: shp run <rootfs_path> <cmd> [options]\n",
        Ev.exitProc 0] := by
  rcases argv with _ | ⟨a0, _ | ⟨a1, rest⟩⟩
  · simp [mainTrace]
  · simp [mainTrace]
  · obtain ⟨h1, h2⟩ := h a0 a1 rest rfl
    simp [mainTrace, h1, h2]

/-- Witness for C7's amended theorem at the invocation `shp bogus`. -/
theorem claim7_witness :
    (∀ a0 a1 rest, (["shp", "bogus"] : List String) = a0 :: a1 :: rest →
      a1 ≠ "run" ∧ a1 ≠ "child") ∧
    mainTrace ⟨none, 0⟩ (⟨none, ⟨Except.ok "", none, none, none, none, none⟩,
        ⟨none, none⟩, none, none⟩ : ChildOracle) ["shp", "bogus"] =
      [Ev.print "usage: shp run <rootfs_path> <cmd> [options]\n",
        Ev.exitProc 0] :=
  ⟨fun a0 a1 rest heq => by
      injection heq with h1 h2
      injection h2 with h3 h4
      subst h3
      exact ⟨by decide, by decide⟩,
    claim7_usage_exits_zero ⟨none, 0⟩
      ⟨none, ⟨Except.ok "", none, none, none, none, none⟩, ⟨none, none⟩,
        none, none⟩ ["shp", "bogus"]
      (fun a0 a1 rest heq => by
        injection heq with h1 h2
        injection h2 with h3 h4
        subst h3
        exact ⟨by decide, by decide⟩)⟩

theorem afterIso_mount (o : ChildOracle) (b : String) (crest : List String)
    (s : MountSpec) (ok : Bool) (h : Ev.sysMount s ok ∈ afterIso o b crest) :
    s = procMountSpec := by
  rw [afterIso, mountProc] at h
  rcases List.mem_append.mp h with h1 | h1
  · have h2 := List.mem_singleton.mp h1
    rw [Ev.sysMount.injEq] at h2
    exact h2.1
  · cases hm : o.mount with
    | some e =>
      rw [hm] at h1
      simp [handle] at h1
    | none =>
      rw [hm] at h1
      rcases List.mem_cons.mp h1 with h2 | h2
      · exact Ev.noConfusion h2
      · cases hr : o.run with
        | some e =>
          rw [hr] at h2
          simp [handle] at h2
        | none =>
          rw [hr] at h2
          simp at h2

/-- C8: the proc mount is fixed and not configurable — `mountProc`
always issues `mount("proc", "proc", "proc", 0, "")`, and every mount
event in any trace of the Init role carries exactly that specification
(source, target and type all the procfs name, zero flags, empty
options). -/
theorem claim8_proc_mount_fixed :
    procMountSpec = ⟨"proc", "proc", "proc", 0, ""⟩ ∧
    (∀ res : Option String,
      (mountProc res).1 = [Ev.sysMount procMountSpec res.isNone]) ∧
    ∀ (o : ChildOracle) (args : List String) (s : MountSpec) (ok : Bool),
      Ev.sysMount s ok ∈ childTrace o args → s = procMountSpec := by
  refine ⟨rfl, fun res => rfl, ?_⟩
  intro o args s ok h
  rcases args with _ | ⟨rootfs, _ | ⟨c0, crest⟩⟩
  · simp [childTrace] at h
  · simp [childTrace] at h
  obtain ⟨ws, hws⟩ := cmdpath_shape c0
  cases hstat : o.stat with
  | some e =>
    simp [childTrace, validateRootfs, hstat, handle] at h
  | none =>
    rw [childTrace] at h
    simp only [validateRootfs, hstat, hws, List.singleton_append] at h
    rcases List.mem_cons.mp h with h1 | h1
    · exact Ev.noConfusion h1
    rcases List.mem_cons.mp h1 with h2 | h2
    · exact Ev.noConfusion h2
    rcases List.mem_append.mp h2 with h3 | h3
    · exact absurd h3 (not_mem_of_all (pivot_evs o.pv rootfs) rfl)
    cases hpv : (pivotIsolate o.pv rootfs).2 with
    | some e =>
      rw [hpv] at h3
      rcases List.mem_cons.mp h3 with h4 | h4
      · exact Ev.noConfusion h4
      rw [fallback] at h4
      rcases List.mem_append.mp h4 with h5 | h5
      · exact absurd h5 (not_mem_of_all (chroot_evs o.ch rootfs) rfl)
      cases hch : (chrootIsolate o.ch rootfs).2 with
      | some e2 =>
        rw [hch] at h5
        simp [handle] at h5
      | none =>
        rw [hch] at h5
        exact afterIso_mount o (getCmdPath c0).2 crest s ok h5
    | none =>
      rw [hpv] at h3
      exact afterIso_mount o (getCmdPath c0).2 crest s ok h3

/-- Witness for C8 at a concrete trace containing a mount event. -/
theorem claim8_witness :
    (Ev.sysMount ⟨"proc", "proc", "proc", 0, ""⟩ true ∈
      childTrace (⟨none, ⟨Except.ok "/r", none, none, none, none, none⟩,
        ⟨none, none⟩, none, none⟩ : ChildOracle) ["r", "ls"]) ∧
    (⟨"proc", "proc", "proc", 0, ""⟩ : MountSpec) = procMountSpec :=
  ⟨by decide,
    claim8_proc_mount_fixed.2.2
      ⟨none, ⟨Except.ok "/r", none, none, none, none, none⟩, ⟨none, none⟩,
        none, none⟩ ["r", "ls"] ⟨"proc", "proc", "proc", 0, ""⟩ true
      (by decide)⟩

/-- C9: once `pivot_root` and the subsequent `chdir("/")` have
succeeded, the strategy returns success whatever the outcomes of the
two cleanup steps; a failing lazy unmount or holding-directory removal
only adds a warning line to the trace. -/
theorem claim9_cleanup_best_effort (o : PivotOracle) (rootfs a : String)
    (habs : o.abs = Except.ok a) (hmk : o.mkdir = none)
    (hpv : o.pivot = none) (hcd : o.chdir = none) :
    (pivotIsolate o rootfs).2 = none ∧
    (∀ e, o.unmount = some e →
      Ev.print ("Warning: unmounting old root failed: " ++ e ++ "\n") ∈
        (pivotIsolate o rootfs).1) ∧
    (∀ e, o.remove = some e →
      Ev.print ("Warning: removing old root directory failed: " ++ e ++ "\n")
        ∈ (pivotIsolate o rootfs).1) := by
  obtain ⟨abs, mk, pv, cd, um, rm⟩ := o
  simp only at habs hmk hpv hcd
  subst habs hmk hpv hcd
  cases um <;> cases rm <;> simp [pivotIsolate]

/-- Witness for C9: both cleanup steps fail (`EBUSY`, `ENOTEMPTY`) and
the strategy still reports success, with both warnings printed. -/
theorem claim9_witness :
    ((⟨Except.ok "/r", none, none, none, some "EBUSY",
        some "ENOTEMPTY"⟩ : PivotOracle).abs = Except.ok "/r" ∧
      (⟨Except.ok "/r", none, none, none, some "EBUSY",
        some "ENOTEMPTY"⟩ : PivotOracle).mkdir = none ∧
      (⟨Except.ok "/r", none, none, none, some "EBUSY",
        some "ENOTEMPTY"⟩ : PivotOracle).pivot = none ∧
      (⟨Except.ok "/r", none, none, none, some "EBUSY",
        some "ENOTEMPTY"⟩ : PivotOracle).chdir = none) ∧
    ((pivotIsolate ⟨Except.ok "/r", none, none, none, some "EBUSY",
        some "ENOTEMPTY"⟩ "r").2 = none ∧
      (∀ e, (⟨Except.ok "/r", none, none, none, some "EBUSY",
          some "ENOTEMPTY"⟩ : PivotOracle).unmount = some e →
        Ev.print ("Warning: unmounting old root failed: " ++ e ++ "\n") ∈
          (pivotIsolate ⟨Except.ok "/r", none, none, none, some "EBUSY",
            some "ENOTEMPTY"⟩ "r").1) ∧
      (∀ e, (⟨Except.ok "/r", none, none, none, some "EBUSY",
          some "ENOTEMPTY"⟩ : PivotOracle).remove = some e →
        Ev.print ("Warning: removing old root directory failed: " ++ e ++
          "\n") ∈ (pivotIsolate ⟨Except.ok "/r", none, none, none,
            some "EBUSY", some "ENOTEMPTY"⟩ "r").1)) :=
  ⟨⟨rfl, rfl, rfl, rfl⟩,
    claim9_cleanup_best_effort
      ⟨Except.ok "/r", none, none, none, some "EBUSY", some "ENOTEMPTY"⟩
      "r" "/r" rfl rfl rfl rfl⟩

/-- C10: when the pivot_root syscall fails after the holding directory
`<absRoot>/.old_root` was created (mode `0700`, i.e. `448`), no removal
of any path ever happens in the child's trace, and the chroot fallback
runs strictly after the directory's creation — a failed primary attempt
leaves the holding directory behind inside the new root. -/
theorem claim10_old_root_persists (o : ChildOracle)
    (rootfs c0 a e : String) (crest : List String)
    (hstat : o.stat = none) (habs : o.pv.abs = Except.ok a)
    (hmk : o.pv.mkdir = none) (hpv : o.pv.pivot = some e) :
    ∃ t₁ t₂,
      childTrace o (rootfs :: c0 :: crest) =
        t₁ ++ Ev.sysMkdirAll (goJoin a oldRootDir) 448 true :: t₂ ∧
      Ev.sysChroot rootfs o.ch.chroot.isNone ∈ t₂ ∧
      ∀ p ok, Ev.sysRemove p ok ∉ childTrace o (rootfs :: c0 :: crest) := by
  obtain ⟨ws, hws⟩ := cmdpath_shape c0
  obtain ⟨tc, htc⟩ := chroot_head o.ch rootfs
  have hpi : pivotIsolate o.pv rootfs =
      ([Ev.sysMkdirAll (goJoin a oldRootDir) 448 true,
        Ev.sysPivotRoot a (goJoin a oldRootDir) false],
        some ("pivot_root failed: " ++ e)) := by
    rw [pivotIsolate, habs]
    rw [hmk, hpv]
  have hT : childTrace o (rootfs :: c0 :: crest) =
      [Ev.sysStat rootfs true, Ev.print ws] ++
        Ev.sysMkdirAll (goJoin a oldRootDir) 448 true ::
          (Ev.sysPivotRoot a (goJoin a oldRootDir) false ::
            Ev.print ("pivot_root failed: " ++ ("pivot_root failed: " ++ e) ++
                "\nFalling back to chroot...\n") ::
              fallback o rootfs (getCmdPath c0).2 crest) := by
    simp only [childTrace, validateRootfs, hstat, hws, hpi,
      List.singleton_append, List.cons_append, List.append_assoc,
      List.nil_append]
  refine ⟨[Ev.sysStat rootfs true, Ev.print ws],
    Ev.sysPivotRoot a (goJoin a oldRootDir) false ::
      Ev.print ("pivot_root failed: " ++ ("pivot_root failed: " ++ e) ++
          "\nFalling back to chroot...\n") ::
        fallback o rootfs (getCmdPath c0).2 crest, hT, ?_, ?_⟩
  · refine List.mem_cons_of_mem _ (List.mem_cons_of_mem _ ?_)
    rw [fallback, htc]
    exact List.mem_append_left _ (List.mem_cons_self _ _)
  · intro p ok h
    rw [hT] at h
    rcases List.mem_append.mp h with h1 | h1
    · simp at h1
    rcases List.mem_cons.mp h1 with h2 | h2
    · exact Ev.noConfusion h2
    rcases List.mem_cons.mp h2 with h3 | h3
    · exact Ev.noConfusion h3
    rcases List.mem_cons.mp h3 with h4 | h4
    · exact Ev.noConfusion h4
    · exact absurd h4
        (not_mem_of_all (fallback_evs o rootfs (getCmdPath c0).2 crest) rfl)

/-- Witness for C10 at a concrete input: mkdir succeeds, pivot_root
fails with `EINVAL`, the fallback chroot succeeds. -/
theorem claim10_witness :
    ((⟨none, ⟨Except.ok "/r", none, some "EINVAL", none, none, none⟩,
        ⟨none, none⟩, none, none⟩ : ChildOracle).stat = none ∧
      (⟨none, ⟨Except.ok "/r", none, some "EINVAL", none, none, none⟩,
        ⟨none, none⟩, none, none⟩ : ChildOracle).pv.abs = Except.ok "/r" ∧
      (⟨none, ⟨Except.ok "/r", none, some "EINVAL", none, none, none⟩,
        ⟨none, none⟩, none, none⟩ : ChildOracle).pv.mkdir = none ∧
      (⟨none, ⟨Except.ok "/r", none, some "EINVAL", none, none, none⟩,
        ⟨none, none⟩, none, none⟩ : ChildOracle).pv.pivot = some "EINVAL") ∧
    ∃ t₁ t₂,
      childTrace (⟨none, ⟨Except.ok "/r", none, some "EINVAL", none, none,
          none⟩, ⟨none, none⟩, none, none⟩ : ChildOracle) ["r", "ls"] =
        t₁ ++ Ev.sysMkdirAll (goJoin "/r" oldRootDir) 448 true :: t₂ ∧
      Ev.sysChroot "r"
        ((⟨none, ⟨Except.ok "/r", none, some "EINVAL", none, none, none⟩,
          ⟨none, none⟩, none, none⟩ : ChildOracle)).ch.chroot.isNone ∈ t₂ ∧
      ∀ p ok, Ev.sysRemove p ok ∉
        childTrace (⟨none, ⟨Except.ok "/r", none, some "EINVAL", none, none,
          none⟩, ⟨none, none⟩, none, none⟩ : ChildOracle) ["r", "ls"] :=
  ⟨⟨rfl, rfl, rfl, rfl⟩,
    claim10_old_root_persists
      ⟨none, ⟨Except.ok "/r", none, some "EINVAL", none, none, none⟩,
        ⟨none, none⟩, none, none⟩ "r" "ls" "/r" "EINVAL" []
      rfl rfl rfl rfl⟩

end Shp
